import Mathlib

set_option autoImplicit false

/-!
Verification of the resumable video-transcoding pipeline of
`django-video-transcoding` against its natural-language specification.

The Python sources are shallowly embedded: Python `str` values are modelled
as Lean `String` (or as `List Char` where character-level reasoning about a
trailing slash is needed), Python `float` as `ℚ`, Python `int` as `ℤ`,
raised exceptions as `Except`, and external side effects (the ffmpeg
processes, HTTP, the database row) as explicit values threaded through the
functions.  Each definition mirrors one Python function and is named after
it.
-/

namespace DVT

/-! ### String helpers shared by several components -/

/-- The empty Python string. -/
def emptyStr : String := ""

/-- Line separator; the playlists handled by `strategy.py` are LF-separated. -/
def nl : String := "\n"

/-- Comment marker of M3U8 playlist lines (`line.startswith(...)` argument in
`ResumableStrategy.get_segment_list`). -/
def hashMark : String := "#"

/-- Single-quote character (ASCII 39) used by `write_concat_file` around each
chunk name. -/
def singleQuote : String := String.singleton (Char.ofNat 39)

/-- Literal `file ` prefix of each ffconcat directive line. -/
def fileWord : String := "file "

/-- First line written by `ResumableStrategy.write_concat_file`. -/
def ffconcatHeader : String := "ffconcat version 1.0"

/-- Python `str.split` with separator `/`, on character lists (structural
recursion so that concrete values reduce definitionally). -/
def splitSlash : List Char → List (List Char)
  | [] => [[]]
  | c :: rest =>
    if c = '/' then [] :: splitSlash rest
    else
      match splitSlash rest with
      | [] => [[c]]
      | h :: t => (c :: h) :: t

/-- Python `sep.join` on character lists. -/
def joinWith (sep : List Char) : List (List Char) → List Char
  | [] => []
  | [c] => c
  | c :: c2 :: rest => c ++ sep ++ joinWith sep (c2 :: rest)

/-- Python `str.splitlines(keepends=False)` restricted to LF-separated text:
splitting on the line separator, with the empty fragment after a trailing
newline dropped (Python yields no line for it), and no lines at all for the
empty string. -/
def pySplitlines (s : String) : List String :=
  if s = emptyStr then []
  else
    let l := s.splitOn nl
    if l.getLast? = some emptyStr then l.dropLast else l

/-! ### strategy.py: `ResumableStrategy.get_segment_list` (lines 337-348) -/

/-- Loop body of `get_segment_list`: `for line in content.splitlines():` with
`continue` on comment lines and `segments.append(line)` otherwise.  The first
argument is the accumulated `segments` list. -/
def segmentLoop : List String → List String → List String
  | acc, [] => acc
  | acc, line :: rest =>
    if line.startsWith hashMark then segmentLoop acc rest
    else segmentLoop (acc ++ [line]) rest

/-- The function `ResumableStrategy.get_segment_list` applied to the playlist
content read from `sources/source-video.m3u8`. -/
def getSegmentList (content : String) : List String :=
  segmentLoop [] (pySplitlines content)

/-! ### strategy.py: `ResumableStrategy.write_concat_file` (lines 417-428) -/

/-- One directive line of the ffconcat file: `file` followed by the chunk
name wrapped in single quotes. -/
def concatLine (fn : String) : String :=
  fileWord ++ singleQuote ++ fn ++ singleQuote

/-- Loop body of `write_concat_file`: `for fn in segments:
concat.append(...)`.  The first argument is the accumulated `concat` list,
initialised with the ffconcat header. -/
def concatLoop : List String → List String → List String
  | acc, [] => acc
  | acc, fn :: rest => concatLoop (acc ++ [concatLine fn]) rest

/-- Content written by `write_concat_file` to `results/concat.ffconcat`:
the joined concat list. -/
def writeConcatContent (segments : List String) : String :=
  String.intercalate nl (concatLoop [ffconcatHeader] segments)

/-! ### fffw stream metadata (`fffw.graph.meta`), as read by profiles.py and
strategy.py -/

/-- A scene of a stream (fffw `meta.Scene`). -/
structure Scene where
  stream : Option String
  duration : ℚ
  start : ℚ
  position : ℚ
  deriving DecidableEq

/-- Video stream metadata (fffw `meta.VideoMeta`), restricted to the fields
the verified code reads or writes. -/
structure VideoMeta where
  width : ℤ
  height : ℤ
  bitrate : ℤ
  frame_rate : ℚ
  dar : ℚ
  par : ℚ
  duration : ℚ
  frames : ℤ
  scenes : List Scene
  deriving DecidableEq

/-- Audio stream metadata (fffw `meta.AudioMeta`). -/
structure AudioMeta where
  bitrate : ℤ
  sampling_rate : ℤ
  channels : ℤ
  duration : ℚ
  samples : ℤ
  scenes : List Scene
  deriving DecidableEq

/-- Media file metadata (`transcoding/metadata.py` class `Metadata`). -/
structure Metadata where
  uri : String
  videos : List VideoMeta
  audios : List AudioMeta
  deriving DecidableEq

/-! ### strategy.py: `ResumableStrategy.merge_metadata` (lines 210-241) -/

/-- In-place pairwise update loop `for i, (r, s) in enumerate(zip(result,
segment)): result[i] = replace(r, ...)`: positions of the first list beyond
the length of the second are left untouched, extra elements of the second
list are never read. -/
def updatePairs {α : Type} (combine : α → α → α) : List α → List α → List α
  | rs, [] => rs
  | [], _ :: _ => []
  | r :: rs, s :: ss => combine r s :: updatePairs combine rs ss

/-- The `dataclasses.replace` call on one audio pair in `merge_metadata`:
durations, sample counts and scene lists are combined. -/
def mergeAudioPair (r s : AudioMeta) : AudioMeta :=
  { r with
    duration := r.duration + s.duration
    samples := r.samples + s.samples
    scenes := r.scenes ++ s.scenes }

/-- The `dataclasses.replace` call on one video pair in `merge_metadata`. -/
def mergeVideoPair (r s : VideoMeta) : VideoMeta :=
  { r with
    duration := r.duration + s.duration
    frames := r.frames + s.frames
    scenes := r.scenes ++ s.scenes }

/-- The static method `ResumableStrategy.merge_metadata`; the Python code
mutates `result_meta` in place and returns it, modelled here as returning
the updated record. -/
def merge_metadata (result_meta : Option Metadata) (segment_meta : Metadata) :
    Metadata :=
  match result_meta with
  | none => segment_meta
  | some r =>
    { r with
      audios := updatePairs mergeAudioPair r.audios segment_meta.audios
      videos := updatePairs mergeVideoPair r.videos segment_meta.videos }

/-! ### strategy.py: `ResumableStrategy.process_segment` (lines 350-371) and
`metadata_file` (lines 172-180) -/

/-- Name of the results collection (`self.results`). -/
def resultsName : String := "results"

/-- Extension appended by `metadata_file`. -/
def jsonExt : String := ".json"

/-- The property `Resource.basename` (workspace.py): the last path part, or
the empty string for the root resource. -/
def partsBasename (parts : List String) : String :=
  parts.getLast?.getD emptyStr

/-- The static method `ResumableStrategy.metadata_file`: replace the last
part of a chunk file path with `<basename>.json`. -/
def metadata_file (parts : List String) : List String :=
  parts.dropLast ++ [partsBasename parts ++ jsonExt]

/-- The shared-webdav workspace state visible to `process_segment`: the
sentinel files it reads and writes, keyed by path parts.  The JSON
round-trip `Metadata → json.dumps → json.loads → Metadata` is modelled as
the identity (the spec lists this round-trip as an invariant), so file
contents are stored as `Metadata` values; `exists` is a successful
lookup. -/
abbrev SentinelStore := List (List String × Metadata)

/-- The operation `Workspace.write` on the sentinel store. -/
def wsWrite (ws : SentinelStore) (f : List String) (m : Metadata) :
    SentinelStore :=
  (f, m) :: ws

/-- The method `ResumableStrategy.process_segment`.  The external
transcoding run `_process_segment` (probe plus ffmpeg invocation) is
passed in as its outcome `transcode`; the returned triple is the result,
final workspace state, and whether the Transcoder was invoked. -/
def process_segment (ws : SentinelStore) (transcode : Except String Metadata)
    (filename : String) : Except String Metadata × SentinelStore × Bool :=
  let f := metadata_file [resultsName, filename]
  match ws.lookup f with
  | some m => (Except.ok m, ws, false)
  | none =>
    match transcode with
    | Except.error e => (Except.error e, ws, true)
    | Except.ok meta => (Except.ok meta, wsWrite ws f meta, true)

/-- A concrete scene used by witnesses. -/
def exScene : Scene := ⟨none, 3, 0, 0⟩

/-- A concrete video stream metadata used by witnesses. -/
def exVideoMeta : VideoMeta := ⟨1920, 1080, 5000000, 30, 16 / 9, 1, 12, 360, [exScene]⟩

/-- A concrete audio stream metadata used by witnesses. -/
def exAudioMeta : AudioMeta := ⟨192000, 48000, 2, 12, 576000, [exScene]⟩

/-- A concrete media metadata used by witnesses. -/
def exMeta : Metadata := ⟨emptyStr, [exVideoMeta], [exAudioMeta]⟩

/-- A concrete chunk filename used by witnesses. -/
def chunkName : String := "source-video-00000.mkv"

/-! ### strategy.py: `ResumableStrategy.cleanup` (187-191) and
`Strategy.__exit__` (59-66) -/

/-- Contents of a workspace collection tree, keyed by path parts.  `none`
means the whole tree has been deleted (`delete_collection(root)`). -/
abbrev Tree := List (List String × String)

/-- The two directory trees owned by a `ResumableStrategy` instance:
`self.ws` (temp workspace) and `self.store` (result storage). -/
structure StrategyWorkspaces where
  ws : Option Tree
  store : Option Tree
  deriving DecidableEq

/-- The method `ResumableStrategy.cleanup`: on error delete the store tree,
otherwise delete the temp workspace tree. -/
def cleanup (is_error : Bool) (st : StrategyWorkspaces) : StrategyWorkspaces :=
  if is_error then { st with store := none }
  else { st with ws := none }

/-- The method `Strategy.__exit__`: invokes `cleanup` with
`is_error = exc_type is not None`.  The raised exception type is modelled as
`Option String`. -/
def contextExit (exc_type : Option String) (st : StrategyWorkspaces) :
    StrategyWorkspaces :=
  cleanup exc_type.isSome st

/-! ### transcoding.py: `Transcoder.validate` (lines 328-345) -/

/-- The duration entries of the metadata dict built by
`Transcoder.get_media_info` and consumed by `Transcoder.validate`
(keys `VIDEO_DURATION` and `AUDIO_DURATION`). -/
structure TranscodingInfo where
  video_duration : ℚ
  audio_duration : ℚ
  deriving DecidableEq

/-- The module constant `DURATION_DELTA = 0.95` (floats modelled as `ℚ`). -/
def DURATION_DELTA : ℚ := 95 / 100

/-- Message of the `TranscodeError` raised by `validate`. -/
def incompleteFileMsg : String := "incomplete file"

/-- The static method `Transcoder.validate`: compares the smaller of the
destination durations against `DURATION_DELTA` times the larger of the
source durations, raising `TranscodeError` when the result is too short. -/
def validate (source_media_info dest_media_info : TranscodingInfo) :
    Except String Unit :=
  let src_duration :=
    max source_media_info.video_duration source_media_info.audio_duration
  let dst_duration :=
    min dest_media_info.video_duration dest_media_info.audio_duration
  if dst_duration < DURATION_DELTA * src_duration then
    Except.error incompleteFileMsg
  else
    Except.ok ()

/-! ### transcoding/profiles.py: conditions, tracks, profiles and
`Preset.select_profile` (lines 153-178) -/

/-- Settings of one output video stream (`profiles.VideoTrack`). -/
structure VideoTrack where
  id : String
  codec : String
  constant_rate_factor : ℤ
  preset : String
  max_rate : ℤ
  buf_size : ℤ
  profile : String
  pix_fmt : String
  width : ℤ
  height : ℤ
  frame_rate : ℚ
  gop_size : ℤ
  force_key_frames : String
  deriving DecidableEq

/-- Settings of one output audio stream (`profiles.AudioTrack`). -/
structure AudioTrack where
  id : String
  codec : String
  bitrate : ℤ
  channels : ℤ
  sample_rate : ℤ
  deriving DecidableEq

/-- Condition on the source video stream (`profiles.VideoCondition`). -/
structure VideoCondition where
  min_width : ℤ
  min_height : ℤ
  min_bitrate : ℤ
  min_frame_rate : ℚ
  min_dar : ℚ
  max_dar : ℚ
  deriving DecidableEq

/-- The method `VideoCondition.is_valid` (profiles.py lines 59-71); the
Python truthiness guard `not self.min_dar or ...` makes each DAR bound
apply only when it is nonzero. -/
def VideoCondition.is_valid (c : VideoCondition) (meta : VideoMeta) : Bool :=
  decide (meta.width ≥ c.min_width) &&
  decide (meta.height ≥ c.min_height) &&
  decide (meta.bitrate ≥ c.min_bitrate) &&
  decide (meta.frame_rate ≥ c.min_frame_rate) &&
  (decide (c.min_dar = 0) || decide (meta.dar ≥ c.min_dar)) &&
  (decide (c.max_dar = 0) || decide (meta.dar ≤ c.max_dar))

/-- Condition on the source audio stream (`profiles.AudioCondition`). -/
structure AudioCondition where
  min_sample_rate : ℤ
  min_bitrate : ℤ
  deriving DecidableEq

/-- The method `AudioCondition.is_valid`. -/
def AudioCondition.is_valid (c : AudioCondition) (meta : AudioMeta) : Bool :=
  decide (meta.bitrate ≥ c.min_bitrate) &&
  decide (meta.sampling_rate ≥ c.min_sample_rate)

/-- A candidate video profile of a preset (`profiles.VideoProfile`);
`video` is the list of `VideoTrack` ids to emit. -/
structure VideoProfile where
  condition : VideoCondition
  segment_duration : ℚ
  video : List String
  deriving DecidableEq

/-- A candidate audio profile of a preset (`profiles.AudioProfile`). -/
structure AudioProfile where
  condition : AudioCondition
  audio : List String
  deriving DecidableEq

/-- Output container options (`profiles.Container`). -/
structure Container where
  segment_duration : Option ℚ
  deriving DecidableEq

/-- A selected transcoding profile (`profiles.Profile`). -/
structure Profile where
  video : List VideoTrack
  audio : List AudioTrack
  container : Container
  deriving DecidableEq

/-- A preset to choose profiles from (`profiles.Preset`). -/
structure Preset where
  video_profiles : List VideoProfile
  audio_profiles : List AudioProfile
  video : List VideoTrack
  audio : List AudioTrack
  deriving DecidableEq

/-- The selection loop shape shared by both halves of `select_profile`:
`for x in l: if p(x): result = x; break`, yielding `none` when the loop
falls through with `result` still `None`. -/
def findFirst {α : Type} (p : α → Bool) : List α → Option α
  | [] => none
  | x :: rest => if p x then some x else findFirst p rest

/-- Message of the `RuntimeError` raised when no video profile matches. -/
def noVideoProfilesMsg : String := "No compatible video profiles"

/-- Message of the `RuntimeError` raised when no audio profile matches. -/
def noAudioProfilesMsg : String := "No compatible audio profiles"

/-- The method `Preset.select_profile`: pick the first matching video
profile, then the first matching audio profile, and materialize the
selected track ids against the preset registry; a failed selection raises
(modelled as `Except.error`). -/
def Preset.select_profile (p : Preset) (video : VideoMeta) (audio : AudioMeta) :
    Except String Profile :=
  match findFirst (fun vp => vp.condition.is_valid video) p.video_profiles with
  | none => Except.error noVideoProfilesMsg
  | some video_profile =>
    match findFirst (fun ap => ap.condition.is_valid audio) p.audio_profiles with
    | none => Except.error noAudioProfilesMsg
    | some audio_profile =>
      Except.ok
        { video := p.video.filter (fun v => video_profile.video.contains v.id)
          audio := p.audio.filter (fun a => audio_profile.audio.contains a.id)
          container := { segment_duration := some video_profile.segment_duration } }

/-- Specification-side description of a first match: `x` occurs in `l`, it
satisfies `p`, and every element declared before it fails `p`. -/
def FirstSat {α : Type} (p : α → Bool) (l : List α) (x : α) : Prop :=
  ∃ pre post, l = pre ++ x :: post ∧ p x = true ∧ ∀ y ∈ pre, p y = false

/-! ### transcoding/metadata.py: `Analyzer.fix_frames` (lines 120-154) -/

/-- Python built-in `round` for a rational argument: round half to even
(banker's rounding), as used for `frames = round(duration * frame_rate)`. -/
def pyRound (x : ℚ) : ℤ :=
  if x - (⌊x⌋ : ℚ) < 1 / 2 then ⌊x⌋
  else if 1 / 2 < x - (⌊x⌋ : ℚ) then ⌊x⌋ + 1
  else if ⌊x⌋ % 2 = 0 then ⌊x⌋ else ⌊x⌋ + 1

/-- Equation check at the end of `fix_frames`: when
`abs(frames - duration * frame_rate) > 1`, `frame_rate` (the least reliable
value) is recomputed as `frames / duration`. -/
def fixFramesCheck (duration frame_rate : ℚ) (frames : ℤ) : ℚ × ℚ × ℤ :=
  if 1 < |(frames : ℚ) - duration * frame_rate| then
    (duration, (frames : ℚ) / duration, frames)
  else
    (duration, frame_rate, frames)

/-- The method `Analyzer.fix_frames` on the track values
`(duration, frame_rate, frames)` (duration already converted to seconds;
Python truthiness `not x` on numbers is `x = 0`).  The branch where two or
more values are unknown returns early, skipping the equation check; the
final formatting of the values back into `track.__dict__` strings is
serialization and is not modelled. -/
def fix_frames (duration frame_rate : ℚ) (frames : ℤ) : ℚ × ℚ × ℤ :=
  if duration = 0 ∧ frames ≠ 0 ∧ frame_rate ≠ 0 then
    fixFramesCheck ((frames : ℚ) / frame_rate) frame_rate frames
  else if frames = 0 ∧ duration ≠ 0 ∧ frame_rate ≠ 0 then
    fixFramesCheck duration frame_rate (pyRound (duration * frame_rate))
  else if frame_rate = 0 ∧ duration ≠ 0 ∧ frames ≠ 0 then
    fixFramesCheck duration ((frames : ℚ) / duration) frames
  else if ¬(frames ≠ 0 ∧ frame_rate ≠ 0 ∧ duration ≠ 0) then
    (duration, frame_rate, frames)
  else
    fixFramesCheck duration frame_rate frames

/-! ### tasks.py: `TranscodeVideo.select_for_update` (lines 58-86) and
`TranscodeVideo.lock_video` (lines 88-103) -/

/-- Status values of `models.Video` (`CREATED, QUEUED, PROCESS, DONE,
ERROR = range(5)`). -/
inductive VStatus where
  | created
  | queued
  | process
  | done
  | error
  deriving DecidableEq

/-- The columns of the `Video` row that the lock path reads or writes. -/
structure VideoRow where
  status : VStatus
  task_id : Option String
  basename : Option String
  deriving DecidableEq

/-- Message standing for `models.Video.DoesNotExist`. -/
def doesNotExistMsg : String := "Video.DoesNotExist"

/-- Message standing for the `ValueError` raised on token or status
mismatch. -/
def valueErrorMsg : String := "ValueError"

/-- Message standing for `self.retry(exc=e)`. -/
def retryMsg : String := "Retry"

/-- The method `TranscodeVideo.select_for_update`: the row returned by the
`FOR UPDATE SKIP LOCKED` query is passed in as `fetch` (`none` means the
row is missing or locked by another worker, which Django surfaces as
`DoesNotExist`); then the worker's task token and the expected status are
verified. -/
def select_for_update (fetch : Option VideoRow) (request_id : String)
    (status : VStatus) : Except String VideoRow :=
  match fetch with
  | none => Except.error doesNotExistMsg
  | some video =>
    if video.task_id ≠ some request_id then Except.error valueErrorMsg
    else if video.status ≠ status then Except.error valueErrorMsg
    else Except.ok video

/-- The method `Video.change_status` as called from `lock_video`: only the
status field is changed (no extra fields are passed). -/
def change_status (video : VideoRow) (status : VStatus) : VideoRow :=
  { video with status := status }

/-- The method `TranscodeVideo.lock_video`: select the QUEUED row for
update under the current task token and transition it to PROCESS; any
selection failure raises `Retry`. -/
def lock_video (fetch : Option VideoRow) (request_id : String) :
    Except String VideoRow :=
  match select_for_update fetch request_id VStatus.queued with
  | Except.error _ => Except.error retryMsg
  | Except.ok video => Except.ok (change_status video VStatus.process)

/-- A concrete worker task token used in the lock evaluation. -/
def exTaskId : String := "c0ffee00c0ffee00c0ffee00c0ffee00"

/-! ### transcoding/transcoder.py: `Splitter.prepare_ffmpeg` (lines
209-216), `prepre_audio_codecs` (225-234), `get_output_kwargs` (236-249)
and `get_var_stream_map` (251-266) -/

/-- Stream kind of an ffmpeg codec (fffw `VIDEO` / `AUDIO`). -/
inductive StreamKind where
  | video
  | audio
  deriving DecidableEq

/-- A codec entry of the Splitter's output: either a stream copy
(`codecs.Copy`) or an encoding audio codec (`codecs.AudioCodec`). -/
inductive FFCodec where
  | copy (kind : StreamKind) (bitrate : ℤ)
  | audioEncode (codec : String) (bitrate channels rate : ℤ)
  deriving DecidableEq

/-- Kind of a codec entry. -/
def FFCodec.kind : FFCodec → StreamKind
  | .copy k _ => k
  | .audioEncode _ _ _ _ => .audio

/-- The method `Splitter.prepre_audio_codecs`: one encoding `AudioCodec`
per profile audio track (the audio is re-encoded, not stream-copied). -/
def prepre_audio_codecs (profile : Profile) : List FFCodec :=
  profile.audio.map
    (fun audio =>
      FFCodec.audioEncode audio.codec audio.bitrate audio.channels
        audio.sample_rate)

/-- The codec list built in `Splitter.prepare_ffmpeg`: a single video
stream copy followed by the profile audio encoders. -/
def splitter_codecs_list (profile : Profile) (videoBitrate : ℤ) :
    List FFCodec :=
  FFCodec.copy StreamKind.video videoBitrate :: prepre_audio_codecs profile

/-- Python `os.path.basename`: the part after the last path separator. -/
def pyBasename (s : String) : String :=
  String.mk (((splitSlash s.toList).getLast?).getD [])

/-- Python `urllib.parse.urljoin` restricted to the shape used by the
Splitter: a plain relative filename resolved against a base URI with a
path, replacing the last path segment of the base. -/
def pyUrljoin (base rel : String) : String :=
  String.mk (joinWith ['/'] ((splitSlash base.toList).dropLast ++ [rel.toList]))

/-- Variant playlist pattern passed as `output_file`. -/
def playlistPattern : String := "playlist-%v.m3u8"

/-- Segment filename pattern passed as `hls_segment_filename`. -/
def segmentPattern : String := "segment-%v-%05d.ts"

/-- Value of `hls_playlist_type`. -/
def vodStr : String := "vod"

/-- Value of `muxdelay`. -/
def zeroStr : String := "0"

/-- Prefix of an audio entry of the var stream map. -/
def aColonStr : String := "a:"

/-- Prefix of a video entry of the var stream map. -/
def vColonStr : String := "v:"

/-- Audio group name fragment of the var stream map. -/
def nameAudioStr : String := ",name:audio-"

/-- Video name fragment of the var stream map. -/
def nameVideoStr : String := ",name:video-"

/-- Space separator of the var stream map. -/
def spaceStr : String := " "

/-- The static method `Splitter.get_var_stream_map`: one `a:` entry per
audio codec and the product of audio and video indices as `v:` entries. -/
def get_var_stream_map (codecs_list : List FFCodec) : String :=
  let videos := codecs_list.filter (fun c => c.kind == StreamKind.video)
  let audios := codecs_list.filter (fun c => !(c.kind == StreamKind.video))
  let aEntries := (List.range audios.length).map
    (fun i => aColonStr ++ toString i ++ nameAudioStr ++ toString i)
  let vEntries := (List.range audios.length).map
    (fun i => (List.range videos.length).map
      (fun j => vColonStr ++ toString j ++ nameVideoStr ++ toString i))
  String.intercalate spaceStr (aEntries ++ vEntries.flatten)

/-- The keyword arguments of the single `HLSOutput` built by
`Splitter.get_output_kwargs`. -/
structure HLSOutputKwargs where
  hls_time : Option ℚ
  hls_playlist_type : String
  codecs : List FFCodec
  muxdelay : String
  copyts : Bool
  output_file : String
  hls_segment_filename : String
  master_pl_name : String
  var_stream_map : String
  deriving DecidableEq

/-- The method `Splitter.get_output_kwargs`. -/
def splitter_get_output_kwargs (profile : Profile) (dst : String)
    (codecs_list : List FFCodec) : HLSOutputKwargs :=
  { hls_time := profile.container.segment_duration
    hls_playlist_type := vodStr
    codecs := codecs_list
    muxdelay := zeroStr
    copyts := true
    output_file := pyUrljoin dst playlistPattern
    hls_segment_filename := pyUrljoin dst segmentPattern
    master_pl_name := pyBasename dst
    var_stream_map := get_var_stream_map codecs_list }

/-- The codec name of the default preset's audio track. -/
def aacStr : String := "aac"

/-- Track id of the default preset's audio track. -/
def track192kStr : String := "192k"

/-- The audio track of the default preset. -/
def exAudioTrack : AudioTrack := ⟨track192kStr, aacStr, 192000, 2, 48000⟩

/-- A profile as selected for a one-video-one-audio source. -/
def exProfile : Profile := ⟨[], [exAudioTrack], ⟨some (24 / 5)⟩⟩

/-- The Splitter destination used by `ResumableStrategy._split`: the
absolute URI of `sources/split.json`. -/
def exSplitDst : String := "http://storage/tmp/bn/sources/split.json"

/-- Playlist URI produced next to `split.json` by the Splitter. -/
def exPlaylistUri : String := "http://storage/tmp/bn/sources/playlist-%v.m3u8"

/-- Segment URI pattern produced next to `split.json` by the Splitter. -/
def exSegmentUri : String := "http://storage/tmp/bn/sources/segment-%v-%05d.ts"

/-- Basename of the Splitter destination. -/
def splitJsonStr : String := "split.json"

/-- Var stream map for one audio and one video codec. -/
def exVsmStr : String := "a:0,name:audio-0 v:0,name:video-0"

/-! ### transcoding/workspace.py: resources, `Collection.trailing_slash`
(lines 59-61), `File.trailing_slash` (75-77) and
`Workspace.get_absolute_uri` (86-90).  URI paths are modelled as
character lists. -/

/-- Python `str.lstrip` with separator `/`. -/
def lstripSlash (s : List Char) : List Char :=
  s.dropWhile (fun c => c == '/')

/-- Python `str.rstrip` with separator `/`, as applied to `uri.path` in
`Workspace.__init__`. -/
def rstripSlash (s : List Char) : List Char :=
  (s.reverse.dropWhile (fun c => c == '/')).reverse

/-- The single-dot component that `pathlib.Path` drops. -/
def dotPart : List Char := ['.']

/-- `pathlib.Path(p).parts` for a relative path `p`: the slash-separated
components with empty and `.` components removed (`..` is kept). -/
def pathParts (s : List Char) : List (List Char) :=
  (splitSlash s).filter (fun c => decide (c ≠ [] ∧ c ≠ dotPart))

/-- A workspace resource: `Collection` (directory) or `File`, identified by
its path parts. -/
inductive WResource where
  | collection (parts : List (List Char))
  | file (parts : List (List Char))
  deriving DecidableEq

/-- The attribute `Resource.parts`. -/
def WResource.parts : WResource → List (List Char)
  | .collection ps => ps
  | .file ps => ps

/-- The properties `Collection.trailing_slash` (a slash) and
`File.trailing_slash` (empty). -/
def WResource.trailingSlash : WResource → List Char
  | .collection _ => ['/']
  | .file _ => []

/-- Whether the resource is a `Collection`. -/
def WResource.isCollection : WResource → Bool
  | .collection _ => true
  | .file _ => false

/-- A workspace, carrying `self.uri.path` as stored by
`Workspace.__init__`. -/
structure WWorkspace where
  path : List Char
  deriving DecidableEq

/-- `Workspace.__init__`: the stored uri path is
`uri.path.rstrip(...)` with the slash stripped from the right. -/
def WWorkspace.ofRawPath (rawPath : List Char) : WWorkspace :=
  ⟨rstripSlash rawPath⟩

/-- The method `Workspace.get_absolute_uri`, restricted to the path
component of the produced URI: the base path components are joined with
the resource parts; if the joined path is empty, `self.uri` (whose path is
the stored base path) is returned unchanged, otherwise a leading slash and
the resource's trailing slash are added. -/
def get_absolute_uri_path (ws : WWorkspace) (r : WResource) : List Char :=
  let path := joinWith ['/'] (pathParts (lstripSlash ws.path) ++ r.parts)
  if path = [] then ws.path
  else '/' :: (path ++ r.trailingSlash)

/-- Whether a path ends with a slash. -/
def endsWithSlash (s : List Char) : Bool :=
  s.getLast? == some '/'

/-- A concrete raw base path used in the C9 witness. -/
def exBasePathChars : List Char := "/data/tmp/".toList

/-- A concrete collection name used in the C9 witness. -/
def exSourcesChars : List Char := "sources".toList

end DVT

namespace DVT

/-! ### Helper lemmas -/

/-- Banker's rounding lands within half a unit of its argument. -/
theorem abs_pyRound_sub_le (x : ℚ) : |(pyRound x : ℚ) - x| ≤ 1 / 2 := by
  have h0 : (0 : ℚ) ≤ x - (⌊x⌋ : ℚ) := by
    have := Int.floor_le x
    linarith
  have h1 : x - (⌊x⌋ : ℚ) < 1 := by
    have := Int.lt_floor_add_one x
    linarith
  unfold pyRound
  split_ifs with hlt hgt hev <;>
    · rw [abs_le]
      push_cast
      constructor <;> linarith

/-- Unfolding the `get_segment_list` loop: it appends exactly the
non-comment lines, in order, to the accumulator. -/
theorem segmentLoop_eq (l : List String) :
    ∀ acc : List String,
      segmentLoop acc l = acc ++ l.filter (fun line => !line.startsWith hashMark) := by
  induction l with
  | nil => intro acc; simp [segmentLoop]
  | cons line rest ih =>
    intro acc
    by_cases h : line.startsWith hashMark
    · simp [segmentLoop, h, ih]
    · simp [segmentLoop, h, ih]

/-- Unfolding the `write_concat_file` loop: it appends one `file` directive
per chunk, in order, to the accumulator. -/
theorem concatLoop_eq (l : List String) :
    ∀ acc : List String, concatLoop acc l = acc ++ l.map concatLine := by
  induction l with
  | nil => intro acc; simp [concatLoop]
  | cons fn rest ih =>
    intro acc
    simp [concatLoop, ih]

/-- The selection loop is `List.find?`. -/
theorem findFirst_eq_find? {α : Type} (p : α → Bool) (l : List α) :
    findFirst p l = l.find? p := by
  induction l with
  | nil => rfl
  | cons x rest ih =>
    rw [findFirst]
    by_cases h : p x
    · rw [if_pos h, List.find?_cons_of_pos _ h]
    · rw [if_neg h, List.find?_cons_of_neg _ h, ih]

/-- The selection loop returns exactly the first satisfying element. -/
theorem findFirst_eq_some_iff {α : Type} (p : α → Bool) (l : List α) (x : α) :
    findFirst p l = some x ↔ FirstSat p l x := by
  rw [findFirst_eq_find?, List.find?_eq_some]
  unfold FirstSat
  constructor
  · rintro ⟨hp, as, bs, heq, hpre⟩
    exact ⟨as, bs, heq, hp, fun y hy => by simpa using hpre y hy⟩
  · rintro ⟨pre, post, heq, hp, hpre⟩
    exact ⟨hp, pre, post, heq, fun y hy => by simp [hpre y hy]⟩

/-- The selection loop falls through exactly when no element satisfies. -/
theorem findFirst_eq_none_iff {α : Type} (p : α → Bool) (l : List α) :
    findFirst p l = none ↔ ∀ y ∈ l, p y = false := by
  rw [findFirst_eq_find?]
  simp [List.find?_eq_none]

/-- The pairwise update loop keeps the length of the first list. -/
theorem updatePairs_length {α : Type} (combine : α → α → α) (rs ss : List α) :
    (updatePairs combine rs ss).length = rs.length := by
  induction rs generalizing ss with
  | nil => cases ss <;> rfl
  | cons r rs ih =>
    cases ss with
    | nil => rfl
    | cons s ss => simp [updatePairs, ih]

/-- Positions at or beyond the second list's length are untouched by the
pairwise update loop. -/
theorem updatePairs_get?_of_le {α : Type} (combine : α → α → α)
    (rs ss : List α) (i : ℕ) (h : ss.length ≤ i) :
    (updatePairs combine rs ss).get? i = rs.get? i := by
  induction rs generalizing ss i with
  | nil => cases ss <;> rfl
  | cons r rs ih =>
    cases ss with
    | nil => rfl
    | cons s ss =>
      cases i with
      | zero => exact absurd h (by simp)
      | succ n =>
        simp only [updatePairs, List.get?_cons_succ]
        exact ih ss n (by simpa using h)

/-- Paired positions are combined by the pairwise update loop. -/
theorem updatePairs_get?_of_both {α : Type} (combine : α → α → α)
    (rs ss : List α) (i : ℕ) (x y : α)
    (hx : rs.get? i = some x) (hy : ss.get? i = some y) :
    (updatePairs combine rs ss).get? i = some (combine x y) := by
  induction rs generalizing ss i with
  | nil => simp at hx
  | cons r rs ih =>
    cases ss with
    | nil => simp at hy
    | cons s ss =>
      cases i with
      | zero =>
        simp only [List.get?_cons_zero, Option.some.injEq] at hx hy
        simp [updatePairs, hx, hy]
      | succ n =>
        simp only [List.get?_cons_succ] at hx hy
        simp only [updatePairs, List.get?_cons_succ]
        exact ih ss n hx hy

/-! ### Claim theorems -/

/-- C3: `Preset.select_profile` picks the first video profile in
declaration order whose condition (all `min_` bounds, DAR bounds only when
nonzero) is satisfied by the given video stream and, independently, the
first audio profile whose condition is satisfied by the given audio
stream, materializing the selected track ids; it fails with a profile
error exactly when one of the two selections has no match. -/
theorem select_profile_first_match (P : Preset) (v : VideoMeta) (a : AudioMeta) :
    (∀ (c : VideoCondition) (m : VideoMeta), c.is_valid m = true ↔
      (m.width ≥ c.min_width ∧ m.height ≥ c.min_height ∧
       m.bitrate ≥ c.min_bitrate ∧ m.frame_rate ≥ c.min_frame_rate ∧
       (c.min_dar = 0 ∨ m.dar ≥ c.min_dar) ∧
       (c.max_dar = 0 ∨ m.dar ≤ c.max_dar))) ∧
    (∀ prof, P.select_profile v a = Except.ok prof ↔
      ∃ vp ap,
        FirstSat (fun q => q.condition.is_valid v) P.video_profiles vp ∧
        FirstSat (fun q => q.condition.is_valid a) P.audio_profiles ap ∧
        prof = { video := P.video.filter (fun t => vp.video.contains t.id)
                 audio := P.audio.filter (fun t => ap.audio.contains t.id)
                 container := { segment_duration := some vp.segment_duration } }) ∧
    ((∃ e, P.select_profile v a = Except.error e) ↔
      ((∀ vp ∈ P.video_profiles, vp.condition.is_valid v = false) ∨
       (∀ ap ∈ P.audio_profiles, ap.condition.is_valid a = false))) := by
  refine ⟨?_, ?_, ?_⟩
  · intro c m
    simp only [VideoCondition.is_valid, Bool.and_eq_true, Bool.or_eq_true,
      decide_eq_true_eq]
    tauto
  · intro prof
    cases hfv : findFirst (fun vp => vp.condition.is_valid v) P.video_profiles with
    | none =>
      simp only [Preset.select_profile, hfv]
      constructor
      · intro h
        cases h
      · rintro ⟨vp, ap, hvp, -, -⟩
        rw [← findFirst_eq_some_iff, hfv] at hvp
        cases hvp
    | some vp0 =>
      cases hfa : findFirst (fun ap => ap.condition.is_valid a) P.audio_profiles with
      | none =>
        simp only [Preset.select_profile, hfv, hfa]
        constructor
        · intro h
          cases h
        · rintro ⟨vp, ap, -, hap, -⟩
          rw [← findFirst_eq_some_iff, hfa] at hap
          cases hap
      | some ap0 =>
        simp only [Preset.select_profile, hfv, hfa, Except.ok.injEq]
        constructor
        · intro h
          exact ⟨vp0, ap0, (findFirst_eq_some_iff _ _ _).mp hfv,
            (findFirst_eq_some_iff _ _ _).mp hfa, h.symm⟩
        · rintro ⟨vp, ap, hvp, hap, hprof⟩
          rw [← findFirst_eq_some_iff, hfv] at hvp
          rw [← findFirst_eq_some_iff, hfa] at hap
          cases hvp
          cases hap
          exact hprof.symm
  · cases hfv : findFirst (fun vp => vp.condition.is_valid v) P.video_profiles with
    | none =>
      simp only [Preset.select_profile, hfv]
      constructor
      · intro _
        exact Or.inl ((findFirst_eq_none_iff _ _).mp hfv)
      · intro _
        exact ⟨noVideoProfilesMsg, rfl⟩
    | some vp0 =>
      cases hfa : findFirst (fun ap => ap.condition.is_valid a) P.audio_profiles with
      | none =>
        simp only [Preset.select_profile, hfv, hfa]
        constructor
        · intro _
          exact Or.inr ((findFirst_eq_none_iff _ _).mp hfa)
        · intro _
          exact ⟨noAudioProfilesMsg, rfl⟩
      | some ap0 =>
        simp only [Preset.select_profile, hfv, hfa]
        constructor
        · rintro ⟨e, he⟩
          cases he
        · rintro (hnone | hnone)
          · rw [← findFirst_eq_none_iff] at hnone
            rw [hfv] at hnone
            cases hnone
          · rw [← findFirst_eq_none_iff] at hnone
            rw [hfa] at hnone
            cases hnone

/-- C4: `fix_frames` reconstructs the single missing value of
`(duration, frame_rate, frames)` from `frames = duration * frame_rate`
(frames rounded to integer) when exactly one of them is zero, leaves all
three unchanged when two or more are zero, and recomputes `frame_rate` as
`frames / duration` when all three are nonzero but the equation fails by
more than 1. -/
theorem fix_frames_spec (d fr : ℚ) (f : ℤ) :
    (d = 0 → fr ≠ 0 → f ≠ 0 → fix_frames d fr f = ((f : ℚ) / fr, fr, f)) ∧
    (f = 0 → d ≠ 0 → fr ≠ 0 → fix_frames d fr f = (d, fr, pyRound (d * fr))) ∧
    (fr = 0 → d ≠ 0 → f ≠ 0 → fix_frames d fr f = (d, (f : ℚ) / d, f)) ∧
    ((d = 0 ∧ fr = 0) ∨ (d = 0 ∧ f = 0) ∨ (fr = 0 ∧ f = 0) →
      fix_frames d fr f = (d, fr, f)) ∧
    (d ≠ 0 → fr ≠ 0 → f ≠ 0 → 1 < |(f : ℚ) - d * fr| →
      fix_frames d fr f = (d, (f : ℚ) / d, f)) := by
  refine ⟨?_, ?_, ?_, ?_, ?_⟩
  · intro hd hfr hf
    rw [fix_frames, if_pos ⟨hd, hf, hfr⟩]
    rw [fixFramesCheck, if_neg]
    rw [div_mul_cancel₀ _ hfr]
    simp
  · intro hf hd hfr
    rw [fix_frames, if_neg (fun h => h.2.1 hf), if_pos ⟨hf, hd, hfr⟩]
    rw [fixFramesCheck, if_neg]
    have h := abs_pyRound_sub_le (d * fr)
    intro hcontra
    linarith
  · intro hfr hd hf
    rw [fix_frames, if_neg (fun h => h.2.2 hfr), if_neg (fun h => hf h.1),
      if_pos ⟨hfr, hd, hf⟩]
    rw [fixFramesCheck, if_neg]
    rw [mul_comm, div_mul_cancel₀ _ hd]
    simp
  · intro hcase
    have h1 : ¬(d = 0 ∧ f ≠ 0 ∧ fr ≠ 0) := by tauto
    have h2 : ¬(f = 0 ∧ d ≠ 0 ∧ fr ≠ 0) := by tauto
    have h3 : ¬(fr = 0 ∧ d ≠ 0 ∧ f ≠ 0) := by tauto
    have h4 : ¬(f ≠ 0 ∧ fr ≠ 0 ∧ d ≠ 0) := by tauto
    rw [fix_frames, if_neg h1, if_neg h2, if_neg h3, if_pos h4]
  · intro hd hfr hf hgt
    rw [fix_frames, if_neg (fun h => hd h.1), if_neg (fun h => hf h.1),
      if_neg (fun h => hfr h.1), if_neg (not_not_intro ⟨hf, hfr, hd⟩)]
    rw [fixFramesCheck, if_pos hgt]

/-- Witness for C4: a track with missing duration, 30 fps and 300 frames
gets its duration reconstructed as 10 seconds. -/
theorem fix_frames_witness : fix_frames 0 30 300 = (10, 30, 300) := by
  have h := (fix_frames_spec 0 30 300).1 rfl (by norm_num) (by norm_num)
  rw [h]
  norm_num

/-- Witness for C3: the second video condition of the default preset is
satisfied by a concrete 1080p stream. -/
theorem select_profile_first_match_witness :
    VideoCondition.is_valid ⟨1280, 720, 2500000, 0, 0, 0⟩ exVideoMeta = true :=
  ((select_profile_first_match ⟨[], [], [], []⟩ exVideoMeta exAudioMeta).1
    ⟨1280, 720, 2500000, 0, 0, 0⟩ exVideoMeta).mpr (by norm_num [exVideoMeta])

/-- C10: `merge_metadata` pairs accumulator and segment streams
position-wise only up to the shorter list: paired positions combine
duration, frames/samples and scenes, the accumulator's unpaired trailing
streams are left unchanged, extra segment streams are ignored (the result
keeps the accumulator's stream counts), and a `None` accumulator is
replaced by the segment metadata. -/
theorem merge_metadata_pairs (r s : Metadata) :
    merge_metadata none s = s ∧
    (merge_metadata (some r) s).uri = r.uri ∧
    (merge_metadata (some r) s).audios.length = r.audios.length ∧
    (merge_metadata (some r) s).videos.length = r.videos.length ∧
    (∀ i, s.audios.length ≤ i →
      (merge_metadata (some r) s).audios.get? i = r.audios.get? i) ∧
    (∀ i, s.videos.length ≤ i →
      (merge_metadata (some r) s).videos.get? i = r.videos.get? i) ∧
    (∀ i ra sa, r.audios.get? i = some ra → s.audios.get? i = some sa →
      (merge_metadata (some r) s).audios.get? i = some (mergeAudioPair ra sa)) ∧
    (∀ i rv sv, r.videos.get? i = some rv → s.videos.get? i = some sv →
      (merge_metadata (some r) s).videos.get? i = some (mergeVideoPair rv sv)) := by
  refine ⟨rfl, rfl, updatePairs_length _ _ _, updatePairs_length _ _ _,
    ?_, ?_, ?_, ?_⟩
  · intro i h
    exact updatePairs_get?_of_le _ _ _ i h
  · intro i h
    exact updatePairs_get?_of_le _ _ _ i h
  · intro i ra sa hx hy
    exact updatePairs_get?_of_both _ _ _ i _ _ hx hy
  · intro i rv sv hx hy
    exact updatePairs_get?_of_both _ _ _ i _ _ hx hy

/-- Witness for C10: merging a one-stream metadata with itself combines the
single audio pair. -/
theorem merge_metadata_pairs_witness :
    (merge_metadata (some exMeta) exMeta).audios.get? 0
      = some (mergeAudioPair exAudioMeta exAudioMeta) :=
  (merge_metadata_pairs exMeta exMeta).2.2.2.2.2.2.1 0 exAudioMeta exAudioMeta rfl rfl

/-- C1: `process_segment` invokes the Transcoder iff the sentinel
`results/<chunk>.json` does not already exist; when the sentinel exists
the cached metadata is returned without transcoding and the workspace is
unchanged; when transcoding fails no sentinel is written; and the sentinel
is written, holding the chunk result, only after the transcode succeeds. -/
theorem process_segment_sentinel (ws : SentinelStore)
    (transcode : Except String Metadata) (filename : String) :
    ((process_segment ws transcode filename).2.2 = true ↔
      ws.lookup (metadata_file [resultsName, filename]) = none) ∧
    (∀ m, ws.lookup (metadata_file [resultsName, filename]) = some m →
      process_segment ws transcode filename = (Except.ok m, ws, false)) ∧
    (∀ e, ws.lookup (metadata_file [resultsName, filename]) = none →
      transcode = Except.error e →
      process_segment ws transcode filename = (Except.error e, ws, true)) ∧
    (∀ m, ws.lookup (metadata_file [resultsName, filename]) = none →
      transcode = Except.ok m →
      process_segment ws transcode filename
        = (Except.ok m, wsWrite ws (metadata_file [resultsName, filename]) m, true) ∧
      (wsWrite ws (metadata_file [resultsName, filename]) m).lookup
        (metadata_file [resultsName, filename]) = some m) := by
  cases hl : ws.lookup (metadata_file [resultsName, filename]) with
  | some m =>
    refine ⟨?_, ?_, ?_, ?_⟩
    · simp [process_segment, hl]
    · intro m' hm'
      cases hm'
      simp [process_segment, hl]
    · intro e hnone
      cases hnone
    · intro m' hnone
      cases hnone
  | none =>
    refine ⟨?_, ?_, ?_, ?_⟩
    · cases transcode <;> simp [process_segment, hl]
    · intro m' hm'
      cases hm'
    · intro e _ htr
      subst htr
      simp [process_segment, hl]
    · intro m' _ htr
      subst htr
      refine ⟨by simp [process_segment, hl], ?_⟩
      simp [wsWrite, List.lookup]

/-- Witness for C1: on an empty workspace with a successful transcode, the
result is returned and the sentinel is written. -/
theorem process_segment_sentinel_witness :
    process_segment [] (Except.ok exMeta) chunkName
      = (Except.ok exMeta,
         wsWrite [] (metadata_file [resultsName, chunkName]) exMeta, true) :=
  ((process_segment_sentinel [] (Except.ok exMeta) chunkName).2.2.2
    exMeta rfl rfl).1

/-- C2: for every playlist content, `get_segment_list` returns exactly the
non-comment lines of the playlist in their original line order (no
sorting), and for every chunk list, `write_concat_file` writes the line
`ffconcat version 1.0` followed by one `file` directive per chunk in
exactly the same order. -/
theorem segment_list_and_concat_order (content : String) (segments : List String) :
    getSegmentList content
      = (pySplitlines content).filter (fun line => !line.startsWith hashMark) ∧
    writeConcatContent segments
      = String.intercalate nl (ffconcatHeader :: segments.map concatLine) := by
  constructor
  · simpa using segmentLoop_eq (pySplitlines content) []
  · unfold writeConcatContent
    rw [concatLoop_eq]
    rfl

/-- C6: `cleanup` is asymmetric — with `is_error = true` it deletes only the
store tree and leaves the temp workspace untouched, with `is_error = false`
it deletes only the temp workspace and leaves the store untouched — and
`__exit__` invokes `cleanup` with `is_error` true exactly when processing
raised an exception. -/
theorem cleanup_asymmetry (st : StrategyWorkspaces) (e : String) :
    (cleanup true st).store = none ∧
    (cleanup true st).ws = st.ws ∧
    (cleanup false st).ws = none ∧
    (cleanup false st).store = st.store ∧
    contextExit (some e) st = cleanup true st ∧
    contextExit none st = cleanup false st :=
  ⟨rfl, rfl, rfl, rfl, rfl, rfl⟩

/-- C5: `Transcoder.validate` raises a transcoding error exactly when the
output duration is below `0.95` times the source duration, where the output
duration is the smaller of the destination video and audio durations and
the source duration is the larger of the source video and audio durations;
otherwise it returns normally. -/
theorem validate_duration_threshold (src dst : TranscodingInfo) :
    DURATION_DELTA = 95 / 100 ∧
    ((∃ e, validate src dst = Except.error e) ↔
      min dst.video_duration dst.audio_duration
        < DURATION_DELTA * max src.video_duration src.audio_duration) ∧
    (validate src dst = Except.ok () ↔
      ¬ min dst.video_duration dst.audio_duration
        < DURATION_DELTA * max src.video_duration src.audio_duration) := by
  refine ⟨rfl, ?_, ?_⟩ <;>
    by_cases h :
      min dst.video_duration dst.audio_duration
        < DURATION_DELTA * max src.video_duration src.audio_duration <;>
    simp [validate, h]

/-- Python split never returns an empty component list. -/
theorem splitSlash_ne_nil (s : List Char) : splitSlash s ≠ [] := by
  induction s with
  | nil => simp [splitSlash]
  | cons c rest ih =>
    rw [splitSlash]
    by_cases h : c = '/'
    · simp [h]
    · simp only [if_neg h]
      cases hsp : splitSlash rest with
      | nil => simp
      | cons hd tl => simp

/-- No component produced by the split contains the separator. -/
theorem slash_not_mem_splitSlash (s : List Char) :
    ∀ c ∈ splitSlash s, '/' ∉ c := by
  induction s with
  | nil =>
    intro c hc
    simp [splitSlash] at hc
    subst hc
    simp
  | cons a rest ih =>
    intro c hc
    rw [splitSlash] at hc
    by_cases h : a = '/'
    · rw [if_pos h] at hc
      rcases List.mem_cons.mp hc with hc | hc
      · subst hc
        simp
      · exact ih c hc
    · rw [if_neg h] at hc
      cases hsp : splitSlash rest with
      | nil => exact absurd hsp (splitSlash_ne_nil rest)
      | cons hd tl =>
        rw [hsp] at hc
        rcases List.mem_cons.mp hc with hc | hc
        · subst hc
          intro hmem
          rcases List.mem_cons.mp hmem with h1 | h1
          · exact h h1.symm
          · exact ih hd (by rw [hsp]; exact List.mem_cons_self hd tl) h1
        · exact ih c (by rw [hsp]; exact List.mem_cons_of_mem hd hc)

/-- Joining a nonempty list of nonempty components is nonempty. -/
theorem joinWith_ne_nil (sep : List Char) (L : List (List Char))
    (hL : L ≠ []) (h : ∀ c ∈ L, c ≠ []) : joinWith sep L ≠ [] := by
  cases L with
  | nil => exact absurd rfl hL
  | cons c rest =>
    cases rest with
    | nil => simpa [joinWith] using h c (List.mem_cons_self _ _)
    | cons c2 rest2 =>
      have hc := h c (List.mem_cons_self _ _)
      simp [joinWith, hc]

/-- The last character of a join is the last character of the last
component, whenever that component is nonempty. -/
theorem getLast?_joinWith (sep : List Char) (L : List (List Char))
    (x : List Char) (hx : L.getLast? = some x) (hxne : x ≠ []) :
    (joinWith sep L).getLast? = x.getLast? := by
  induction L with
  | nil => simp at hx
  | cons c rest ih =>
    cases rest with
    | nil =>
      simp only [List.getLast?_singleton, Option.some.injEq] at hx
      subst hx
      rfl
    | cons c2 rest2 =>
      rw [List.getLast?_cons_cons] at hx
      have hJ := ih hx
      have hJne : joinWith sep (c2 :: rest2) ≠ [] := by
        intro hnil
        have h2 : x.getLast?.isSome := List.getLast?_isSome.mpr hxne
        rw [← hJ, hnil] at h2
        simp at h2
      show (c ++ sep ++ joinWith sep (c2 :: rest2)).getLast? = x.getLast?
      rw [List.append_assoc,
        List.getLast?_append_of_ne_nil c (by
          intro hnil
          exact hJne (List.append_eq_nil.mp hnil).2),
        List.getLast?_append_of_ne_nil sep hJne]
      exact hJ

/-- C9 counterexample: for a workspace whose base URI path has no
components (base path `/`, stripped to the empty path at init), the
absolute URI of the root `Collection` is the base URI itself, which does
not end with a trailing slash — refuting `trailing slash iff Collection`
as universally stated. -/
theorem get_absolute_uri_no_slash_on_root :
    (WResource.collection []).isCollection = true ∧
    endsWithSlash
      (get_absolute_uri_path (WWorkspace.ofRawPath ['/'])
        (WResource.collection [])) = false := by
  decide

/-- C9 (amended): whenever the base path components together with the
resource parts are nonempty and every resource part is nonempty and does
not itself end with a slash, `get_absolute_uri` is deterministic, its path
is the base path components followed by the resource parts in their
original order, and it ends with a trailing slash iff the resource is a
`Collection` (a `File` never gets one). -/
theorem get_absolute_uri_trailing_slash (ws : WWorkspace) (r : WResource)
    (hne : pathParts (lstripSlash ws.path) ++ r.parts ≠ [])
    (hparts : ∀ p ∈ r.parts, p ≠ [] ∧ p.getLast? ≠ some '/') :
    get_absolute_uri_path ws r
      = '/' :: (joinWith ['/'] (pathParts (lstripSlash ws.path) ++ r.parts)
          ++ r.trailingSlash) ∧
    endsWithSlash (get_absolute_uri_path ws r) = r.isCollection := by
  have hcomp : ∀ c ∈ pathParts (lstripSlash ws.path) ++ r.parts, c ≠ [] := by
    intro c hc
    rcases List.mem_append.mp hc with hc | hc
    · have hc2 : c ∈ (splitSlash (lstripSlash ws.path)).filter
          (fun q => decide (q ≠ [] ∧ q ≠ dotPart)) := hc
      exact (of_decide_eq_true (List.mem_filter.mp hc2).2).1
    · exact (hparts c hc).1
  have hjoin : joinWith ['/'] (pathParts (lstripSlash ws.path) ++ r.parts) ≠ [] :=
    joinWith_ne_nil _ _ hne hcomp
  have heq : get_absolute_uri_path ws r
      = '/' :: (joinWith ['/'] (pathParts (lstripSlash ws.path) ++ r.parts)
          ++ r.trailingSlash) := by
    simp only [get_absolute_uri_path]
    rw [if_neg hjoin]
  refine ⟨heq, ?_⟩
  obtain ⟨x, hx⟩ : ∃ x, (pathParts (lstripSlash ws.path) ++ r.parts).getLast? = some x :=
    Option.isSome_iff_exists.mp (List.getLast?_isSome.mpr hne)
  have hxne : x ≠ [] := hcomp x (List.mem_of_getLast?_eq_some hx)
  have hJlast : (joinWith ['/'] (pathParts (lstripSlash ws.path) ++ r.parts)).getLast?
      = x.getLast? := getLast?_joinWith _ _ x hx hxne
  have hxlast : x.getLast? ≠ some '/' := by
    rcases List.mem_append.mp (List.mem_of_getLast?_eq_some hx) with hmem | hmem
    · intro hcl
      have hmem2 : x ∈ (splitSlash (lstripSlash ws.path)).filter
          (fun q => decide (q ≠ [] ∧ q ≠ dotPart)) := hmem
      exact slash_not_mem_splitSlash _ x (List.mem_filter.mp hmem2).1
        (List.mem_of_getLast?_eq_some hcl)
    · exact (hparts x hmem).2
  rw [heq]
  cases r with
  | collection ps =>
    show endsWithSlash (('/' :: joinWith ['/'] _) ++ ['/']) = true
    rw [endsWithSlash, List.getLast?_concat]
    simp
  | file ps =>
    show endsWithSlash ('/' :: (joinWith ['/'] _ ++ [])) = false
    rw [endsWithSlash, List.append_nil,
      show ('/' :: joinWith ['/'] (pathParts (lstripSlash ws.path)
          ++ (WResource.file ps).parts))
        = ['/'] ++ joinWith ['/'] (pathParts (lstripSlash ws.path)
          ++ (WResource.file ps).parts) from rfl,
      List.getLast?_append_of_ne_nil _ hjoin, hJlast]
    simpa using hxlast

/-- Witness for the amended C9: a collection resource under a nonempty
base path gets a trailing slash. -/
theorem get_absolute_uri_trailing_slash_witness :
    endsWithSlash
      (get_absolute_uri_path (WWorkspace.ofRawPath exBasePathChars)
        (WResource.collection [exSourcesChars])) = true :=
  (get_absolute_uri_trailing_slash (WWorkspace.ofRawPath exBasePathChars)
    (WResource.collection [exSourcesChars]) (by decide) (by decide)).2

/-- C7: evaluation of the lock path at the failing input.  A QUEUED row
with a matching task token and a NULL basename is selected, verified and
transitioned to PROCESS, but its basename is left NULL: no basename is
generated or saved by `lock_video`, contradicting the claim (and the
repository's own `test_lock_video`, which asserts a non-null basename).
The remaining conjuncts show the selection failures the claim describes:
a missing or otherwise-locked row and a row in the wrong status both
raise `Retry`. -/
theorem lock_video_leaves_basename_null :
    lock_video (some ⟨VStatus.queued, some exTaskId, none⟩) exTaskId
      = Except.ok ⟨VStatus.process, some exTaskId, none⟩ ∧
    lock_video none exTaskId = Except.error retryMsg ∧
    lock_video (some ⟨VStatus.process, some exTaskId, none⟩) exTaskId
      = Except.error retryMsg := by
  refine ⟨?_, rfl, ?_⟩ <;>
    simp [lock_video, select_for_update, change_status]

/-- C8: evaluation of the Splitter output builder for a source with one
video and one audio stream.  It configures a single HLS output whose
playlists are named `playlist-%v.m3u8` (segments `segment-%v-%05d.ts`)
next to `split.json`, with the one video stream copied but the audio
stream re-encoded through the profile's `AudioCodec` (aac) — not the two
stream-copy playlist outputs `source-video.m3u8` / `source-audio.m3u8`
that the claim, the repository's `SplitterTestCase.test_prepare_ffmpeg`
and the readers in `strategy.py` / `extract.py` require. -/
theorem splitter_single_hls_output :
    splitter_codecs_list exProfile 4000000
      = [FFCodec.copy StreamKind.video 4000000,
         FFCodec.audioEncode aacStr 192000 2 48000] ∧
    splitter_get_output_kwargs exProfile exSplitDst
        (splitter_codecs_list exProfile 4000000)
      = { hls_time := some (24 / 5)
          hls_playlist_type := vodStr
          codecs := [FFCodec.copy StreamKind.video 4000000,
                     FFCodec.audioEncode aacStr 192000 2 48000]
          muxdelay := zeroStr
          copyts := true
          output_file := exPlaylistUri
          hls_segment_filename := exSegmentUri
          master_pl_name := splitJsonStr
          var_stream_map := exVsmStr } := by
  constructor
  · rfl
  · rfl

end DVT
